import Mathlib

/-!
Verification of the VOEvent ingestion core of `voeventdb`
(`voeventcache/database/models.py`): the XML extraction logic of
`Voevent.from_etree` and `Cite.from_etree`, and the column constraints of the
declarative table definitions.

The embedding models:
  * the parsed XML tree handed to the extractor (an `lxml.objectify` etree);
  * the limited relative-xpath lookups the code performs (`Who/Date`,
    `Who/AuthorIVORN`, `Citations/EventIVORN`, `Citations/Description`);
  * Python attribute-dictionary access (`root.attrib['ivorn']`), which raises
    `KeyError` when the key is absent;
  * the external `iso8601.parse_date` collaborator, for the subset of
    ISO-8601 timestamps exercised here;
  * the rows built by the extractor and the storage-layer (DDL) constraints of
    the `voevent` and `cite` tables.

Fallible Python code is embedded as `Except ExtractError`; any `.error` value
corresponds to the extraction raising an exception (the spec's single
extraction-failure class `MalformedDocument` covers `KeyError`,
`AttributeError` and `iso8601.ParseError` alike).
-/

/-- Errors raised during extraction.  `keyError k` models a Python `KeyError`
on attribute-dictionary access with key `k`; `attributeError t` models an
`lxml.objectify` `AttributeError` when a child element tagged `t` is missing;
`parseError s` models `iso8601.ParseError` on the unparseable text `s`. -/
inductive ExtractError where
  | keyError (key : String)
  | attributeError (tag : String)
  | parseError (text : String)
deriving DecidableEq, Repr

deriving instance DecidableEq for Except

/-- A parsed XML element: tag, attribute dictionary, optional text content and
child elements, exactly the information `from_etree` consumes.  `text = none`
models an element with no text node (Python `.text is None`). -/
inductive XmlElem where
  | mk (tag : String) (attrib : List (String × String)) (text : Option String)
      (children : List XmlElem)

def XmlElem.tag : XmlElem → String
  | .mk t _ _ _ => t

def XmlElem.attrib : XmlElem → List (String × String)
  | .mk _ a _ _ => a

def XmlElem.text : XmlElem → Option String
  | .mk _ _ tx _ => tx

def XmlElem.children : XmlElem → List XmlElem
  | .mk _ _ _ c => c

/-- The children of `e` bearing tag `t`, in document order. -/
def childrenTagged (e : XmlElem) (t : String) : List XmlElem :=
  e.children.filter (fun c => c.tag = t)

/-- Relative xpath over child-tag steps, as used by the code
(`root.xpath('Who/Date')` etc.): all elements reached by following the listed
tags downward, in document order. -/
def xpath (e : XmlElem) : List String → List XmlElem
  | [] => [e]
  | t :: rest => (childrenTagged e t).flatMap (fun c => xpath c rest)

/-- Python `root.attrib[k]`: the attribute value, or `KeyError` if absent. -/
def attribGet (e : XmlElem) (k : String) : Except ExtractError String :=
  match e.attrib.lookup k with
  | some v => .ok v
  | none => .error (.keyError k)

/-- Python `str(element)` on an `lxml.objectify` element: its text content,
or the empty string when there is none. -/
def strOfElem (e : XmlElem) : String :=
  e.text.getD ""

/-- Embeds `_grab_xpath` (models.py lines 17-25) with an infallible converter:
grab the first element at `path` if present and convert its string form,
else return `None`. -/
def grab_xpath {α : Type} (root : XmlElem) (path : List String)
    (converter : String → α) : Option α :=
  match xpath root path with
  | [] => none
  | e :: _ => some (converter (strOfElem e))

/-- Embeds `_grab_xpath` with a converter that can raise (as
`iso8601.parse_date` does): the exception propagates out of the lookup. -/
def grab_xpathE {α : Type} (root : XmlElem) (path : List String)
    (converter : String → Except ExtractError α) :
    Except ExtractError (Option α) :=
  match xpath root path with
  | [] => .ok none
  | e :: _ => (converter (strOfElem e)).map some

/-- A Python `datetime`: calendar fields plus an optional UTC offset in
minutes.  `tzOffsetMinutes = none` models a timezone-naive datetime; `some o`
a timezone-aware one with offset `o`. -/
structure DateTime where
  year : Nat
  month : Nat
  day : Nat
  hour : Nat
  minute : Nat
  second : Nat
  tzOffsetMinutes : Option Int
deriving DecidableEq, Repr

/-- Embeds `pytz.UTC.localize`: attach the UTC timezone (offset 0) to a
naive datetime. -/
def pytzUtcLocalize (d : DateTime) : DateTime :=
  { d with tzOffsetMinutes := some 0 }

/-- Split a character list at every occurrence of `sep`, Python
`str.split(sep)` for a one-character separator: `"".split(sep)` is `[""]`,
and adjacent separators yield empty pieces.  (Implemented structurally so
that it evaluates by kernel reduction; the core `String.splitOn` is
well-founded recursion over byte positions and does not.) -/
def splitChar (sep : Char) : List Char → List (List Char)
  | [] => [[]]
  | c :: rest =>
    let r := splitChar sep rest
    if c = sep then [] :: r
    else (c :: r.headD []) :: r.tail

/-- Python `s.split(sep)` for a one-character separator. -/
def pySplit (sep : Char) (s : String) : List String :=
  (splitChar sep s.data).map (fun l => String.mk l)

/-- Decimal value of a digit string. -/
def digitsToNat (l : List Char) : Nat :=
  l.foldl (fun n c => n * 10 + (c.toNat - 48)) 0

/-- Parse a fixed-width decimal field. -/
def parseFixedNat (width : Nat) (s : String) : Option Nat :=
  if s.data.length = width && s.data.all (fun c => c.isDigit) then
    some (digitsToNat s.data)
  else none

/-- Parse the date part `YYYY-MM-DD` of an ISO-8601 string. -/
def parseDatePart (s : String) : Option (Nat × Nat × Nat) :=
  match pySplit '-' s with
  | [ys, ms, ds] =>
    match parseFixedNat 4 ys, parseFixedNat 2 ms, parseFixedNat 2 ds with
    | some y, some m, some d =>
      if 1 ≤ m && m ≤ 12 && 1 ≤ d && d ≤ 31 then some (y, m, d) else none
    | _, _, _ => none
  | _ => none

/-- Parse the time-of-day part `HH:MM:SS` of an ISO-8601 string. -/
def parseTimePart (s : String) : Option (Nat × Nat × Nat) :=
  match pySplit ':' s with
  | [hs, ms, ss] =>
    match parseFixedNat 2 hs, parseFixedNat 2 ms, parseFixedNat 2 ss with
    | some h, some m, some sec =>
      if h ≤ 23 && m ≤ 59 && sec ≤ 59 then some (h, m, sec) else none
    | _, _, _ => none
  | _ => none

/-- Split a time-with-zone string into the clock part and the zone designator,
if any: `12:00:00Z`, `12:00:00+05:30`, `12:00:00-05:00` or a bare clock. -/
def splitTzPart (t : String) : String × Option String :=
  if t.data.getLast? = some 'Z' then (String.mk t.data.dropLast, some "Z")
  else
    match pySplit '+' t with
    | [base, off] => (base, some ("+" ++ off))
    | _ =>
      match pySplit '-' t with
      | [base, off] => (base, some ("-" ++ off))
      | _ => (t, none)

/-- Parse a zone designator into a UTC offset in minutes.  A missing
designator defaults to UTC (offset 0), as `iso8601.parse_date` does. -/
def parseTzPart : Option String → Option Int
  | none => some 0
  | some s =>
    if s = "Z" then some 0
    else
      match s.data with
      | sign :: rest =>
        if sign = '+' || sign = '-' then
          match pySplit ':' (String.mk rest) with
          | [hs, ms] =>
            match parseFixedNat 2 hs, parseFixedNat 2 ms with
            | some h, some m =>
              if h ≤ 23 && m ≤ 59 then
                let mag : Int := (h * 60 + m : Nat)
                some (if sign = '-' then -mag else mag)
              else none
            | _, _ => none
          | _ => none
        else none
      | [] => none

/-- Models the external `iso8601.parse_date` collaborator on the subset of
ISO-8601 exercised by VOEvent documents: `YYYY-MM-DD` optionally followed by
`THH:MM:SS` and a zone designator (`Z`, `+HH:MM`, `-HH:MM`, or absent).
The library always returns a timezone-aware datetime, defaulting the zone to
UTC; parse failure models `iso8601.ParseError`. -/
def iso8601_parse_date (s : String) : Option DateTime :=
  match pySplit 'T' s with
  | [d] =>
    (parseDatePart d).map (fun yd =>
      ⟨yd.1, yd.2.1, yd.2.2, 0, 0, 0, some 0⟩)
  | [d, t] =>
    match parseDatePart d with
    | none => none
    | some yd =>
      let ct := splitTzPart t
      match parseTimePart ct.1, parseTzPart ct.2 with
      | some hm, some off =>
        some ⟨yd.1, yd.2.1, yd.2.2, hm.1, hm.2.1, hm.2.2, some off⟩
      | _, _ => none
  | _ => none

/-- Serialize an attribute dictionary. -/
def serializeAttribs : List (String × String) → String
  | [] => ""
  | (k, v) :: rest => " " ++ k ++ "=\x22" ++ v ++ "\x22" ++ serializeAttribs rest

mutual

/-- Models `vp.dumps`: serialize the etree back to XML text. -/
def vp_dumps (e : XmlElem) : String :=
  match e with
  | .mk tg at_ tx ch =>
    "<" ++ tg ++ serializeAttribs at_ ++ ">" ++ tx.getD ""
      ++ vp_dumpsList ch
      ++ "</" ++ tg ++ ">"

/-- Serialize a list of sibling elements in order. -/
def vp_dumpsList : List XmlElem → String
  | [] => ""
  | c :: rest => vp_dumps c ++ vp_dumpsList rest

end

/-- A row of the `cite` table as built by `Cite.from_etree`
(models.py lines 150-160): the cited IVORN, the citation type read from the
`cite` attribute, and the shared description. -/
structure CiteRow where
  ref_ivorn : String
  cite_type : String
  description : Option String
deriving DecidableEq, Repr

/-- A row of the `voevent` table (models.py lines 53-79).  Every column is an
`Option` so that the storage-layer nullability constraints can be stated;
`from_etree` fills the fields it sets with `some`. -/
structure VoeventRow where
  received : Option DateTime
  ivorn : Option String
  stream : Option String
  role : Option String
  version : Option String
  author_ivorn : Option String
  author_datetime : Option DateTime
  xml : Option String
  cites : List CiteRow
deriving DecidableEq, Repr

/-- The values of the `roles_enum` column type (models.py lines 62-69):
`vp.definitions.roles.{observation,prediction,utility,test}`. -/
def roles_enum : List String :=
  ["observation", "prediction", "utility", "test"]

/-- The values of the `cite_types_enum` column type (models.py lines
153-159): `vp.definitions.cite_types.{followup,retraction,supersedes}`. -/
def cite_types_enum : List String :=
  ["followup", "retraction", "supersedes"]

/-- Row-level storage constraints of the `voevent` table, read off the DDL:
`received` and `ivorn` carry `nullable=False`; `stream`, `version`,
`author_ivorn`, `author_datetime` and `xml` are nullable with no value
constraint; `role` is an enum column WITHOUT `nullable=False`, so `NULL` is
accepted but a non-null value must belong to `roles_enum`.
(The cross-row uniqueness of `ivorn` is a separate constraint, not modelled
here.) -/
def voeventRowConstraintsOK (r : VoeventRow) : Bool :=
  r.received.isSome && r.ivorn.isSome &&
    (match r.role with
     | none => true
     | some ro => roles_enum.contains ro)

/-- Row-level storage constraints of the `cite` table: `ref_ivorn` and
`cite_type` carry `nullable=False` (both are always present in our row type),
and `cite_type` must belong to `cite_types_enum`. -/
def citeRowConstraintsOK (c : CiteRow) : Bool :=
  cite_types_enum.contains c.cite_type

/-- The loop body of `Cite.from_etree` (models.py lines 176-186) for one
`EventIVORN` entry: if the entry's text is falsy (absent or empty) the entry
is skipped with an informational log message — whose format argument
`root.attrib['ivorn']` is evaluated eagerly and raises `KeyError` when the
root lacks an `ivorn` attribute; otherwise a `Cite` row is built from the
text and the entry's `cite` attribute — whose dictionary access raises
`KeyError` when the attribute is missing.  No check of the attribute's VALUE
happens here. -/
def citeOfEntry (root : XmlElem) (description_text : Option String)
    (entry : XmlElem) : Except ExtractError (Option CiteRow) :=
  match entry.text with
  | none => (attribGet root "ivorn").map (fun _ => none)
  | some t =>
    if t = "" then (attribGet root "ivorn").map (fun _ => none)
    else
      match attribGet entry "cite" with
      | .error e => .error e
      | .ok ct =>
        .ok (some { ref_ivorn := t, cite_type := ct, description := description_text })

/-- The `for entry in root.Citations.EventIVORN` loop: build the citation
list in document order, skipping falsy-text entries, propagating the first
exception. -/
def citesFromEntries (root : XmlElem) (description_text : Option String) :
    List XmlElem → Except ExtractError (List CiteRow)
  | [] => .ok []
  | e :: rest =>
    match citeOfEntry root description_text e with
    | .error err => .error err
    | .ok c? =>
      match citesFromEntries root description_text rest with
      | .error err => .error err
      | .ok cs =>
        match c? with
        | some c => .ok (c :: cs)
        | none => .ok cs

/-- Python `root.Citations` / `element.EventIVORN` in `lxml.objectify`:
take the FIRST child with the given tag, raising `AttributeError` when there
is none. -/
def dotChild (e : XmlElem) (t : String) : Except ExtractError XmlElem :=
  match childrenTagged e t with
  | [] => .error (.attributeError t)
  | c :: _ => .ok c

/-- Embeds `Cite.from_etree` (models.py lines 163-187).  When the xpath
`Citations/EventIVORN` matches nothing the result is the empty list; otherwise
the description text is the text of the first `Citations/Description` element
(None when the element is absent or empty) and the loop runs over the
`EventIVORN` children of the first `Citations` child (iterating
`root.Citations.EventIVORN` visits the same-tag siblings within the first
`Citations` block, raising `AttributeError` if it has none). -/
def Cite.from_etree (root : XmlElem) : Except ExtractError (List CiteRow) :=
  match xpath root ["Citations", "EventIVORN"] with
  | [] => .ok []
  | _ :: _ =>
    let description_text :=
      ((xpath root ["Citations", "Description"]).head?).bind XmlElem.text
    match dotChild root "Citations" with
    | .error e => .error e
    | .ok cblock =>
      match childrenTagged cblock "EventIVORN" with
      | [] => .error (.attributeError "EventIVORN")
      | entries => citesFromEntries root description_text entries

/-- Embeds the stream derivation of models.py line 89,
`ivorn.split('#')[0][6:]`: the first piece of the `'#'`-split (the portion
of the string before the first `'#'`; the whole string when none occurs),
with its first six characters dropped. -/
def streamOf (ivorn : String) : String :=
  String.mk ((((splitChar '#' ivorn.data).headD []).drop 6))

/-- The converter passed for `Who/Date`: `iso8601.parse_date`, raising
`ParseError` on failure. -/
def parse_date_converter (s : String) : Except ExtractError DateTime :=
  match iso8601_parse_date s with
  | some d => .ok d
  | none => .error (.parseError s)

/-- Embeds `Voevent.from_etree` (models.py lines 81-102) for an explicitly
supplied `received` argument.  Attribute accesses happen in source order
(`ivorn`, then `role`, then `version`), then `Who/Date` is looked up and
parsed, then `Who/AuthorIVORN` grabbed verbatim, then the citations built. -/
def Voevent.from_etree (root : XmlElem) (received : DateTime) :
    Except ExtractError VoeventRow :=
  match attribGet root "ivorn" with
  | .error e => .error e
  | .ok ivorn =>
    let stream := streamOf ivorn
    match attribGet root "role" with
    | .error e => .error e
    | .ok role =>
      match attribGet root "version" with
      | .error e => .error e
      | .ok version =>
        match grab_xpathE root ["Who", "Date"] parse_date_converter with
        | .error e => .error e
        | .ok author_datetime =>
          let author_ivorn := grab_xpath root ["Who", "AuthorIVORN"] id
          match Cite.from_etree root with
          | .error e => .error e
          | .ok cites =>
            .ok { received := some received
                  ivorn := some ivorn
                  stream := some stream
                  role := some role
                  version := some version
                  author_ivorn := author_ivorn
                  author_datetime := author_datetime
                  xml := some (vp_dumps root)
                  cites := cites }

set_option linter.unusedVariables false in
/-- Embeds a call to `Voevent.from_etree` in which the caller does NOT supply
`received`.  The Python signature is
`def from_etree(root, received=pytz.UTC.localize(datetime.utcnow()))`:
Python evaluates a default argument expression ONCE, when the `def` statement
executes (here: when models.py is imported), not at each call.  So the
default used is `pytz.UTC.localize` of the naive-UTC clock reading taken at
module import (`moduleLoadUtcNow`); the clock reading at the moment of the
call (`callUtcNow`) plays no role. -/
def from_etree_noReceived (moduleLoadUtcNow : DateTime) (root : XmlElem)
    (callUtcNow : DateTime) : Except ExtractError VoeventRow :=
  Voevent.from_etree root (pytzUtcLocalize moduleLoadUtcNow)

/-- Restates the spec's stream-derivation rule in its own words: split the
identifier on the first `#`, take the portion before it, then strip the
fixed 6-character prefix from the front.  Compared against the code-derived
`streamOf` in claim C2. -/
def streamSpec (ivorn : String) : String :=
  String.mk ((ivorn.data.takeWhile (fun c => c ≠ '#')).drop 6)

/-- The `EventIVORN` entries the citation loop iterates over: the
`EventIVORN` children of the first `Citations` child. -/
def entriesOf (root : XmlElem) : List XmlElem :=
  match childrenTagged root "Citations" with
  | [] => []
  | c :: _ => childrenTagged c "EventIVORN"

/-- The texts of the entries with truthy (present and non-empty) text,
in document order. -/
def nonEmptyTexts (es : List XmlElem) : List String :=
  es.filterMap (fun e =>
    match e.text with
    | some t => if t = "" then none else some t
    | none => none)

/-- The shared description: the text of the first `Citations/Description`
element, when that element exists and has text. -/
def descTextOf (root : XmlElem) : Option String :=
  ((xpath root ["Citations", "Description"]).head?).bind XmlElem.text

/-- A representative well-formed VOEvent document: all three attributes,
a `Who` block with one `Date` and one `AuthorIVORN`, and a `Citations` block
with a `Description`, one non-empty `EventIVORN` and one empty one. -/
def sampleRoot : XmlElem := .mk "voe:VOEvent"
  [("ivorn", "ivo://nasa.gsfc.gcn/SWIFT#BAT_GRB_Pos"),
   ("role", "observation"), ("version", "2.0")]
  none
  [ .mk "Who" [] none
      [ .mk "Date" [] (some "2020-01-01T12:00:00Z") [],
        .mk "AuthorIVORN" [] (some "ivo://nasa.gsfc.tan/gcn") [] ],
    .mk "Citations" [] none
      [ .mk "Description" [] (some "shared desc") [],
        .mk "EventIVORN" [("cite", "followup")] (some "ivo://x#a") [],
        .mk "EventIVORN" [("cite", "retraction")] (some "") [] ] ]

/-- A received timestamp used for concrete extraction runs. -/
def sampleReceived : DateTime := ⟨2015, 1, 1, 0, 0, 0, some 0⟩

/-- The row `Voevent.from_etree` builds from `sampleRoot`. -/
def sampleRow : VoeventRow :=
  { received := some sampleReceived
    ivorn := some "ivo://nasa.gsfc.gcn/SWIFT#BAT_GRB_Pos"
    stream := some "nasa.gsfc.gcn/SWIFT"
    role := some "observation"
    version := some "2.0"
    author_ivorn := some "ivo://nasa.gsfc.tan/gcn"
    author_datetime := some ⟨2020, 1, 1, 12, 0, 0, some 0⟩
    xml := some (vp_dumps sampleRoot)
    cites := [{ ref_ivorn := "ivo://x#a", cite_type := "followup",
                description := some "shared desc" }] }

/-- A document whose `role` attribute holds a value OUTSIDE the enumeration:
used to probe whether extraction validates the role value. -/
def badRoleRoot : XmlElem := .mk "voe:VOEvent"
  [("ivorn", "ivo://nasa.gsfc.gcn/SWIFT#Bad"), ("role", "banana"),
   ("version", "2.0")]
  none []

/-- A document whose only citation entry carries a `cite` attribute value
OUTSIDE the enumeration: used to probe whether extraction validates it. -/
def badCiteRoot : XmlElem := .mk "voe:VOEvent"
  [("ivorn", "ivo://auth/stream#id"), ("role", "test"), ("version", "2.0")]
  none
  [ .mk "Citations" [] none
      [ .mk "EventIVORN" [("cite", "bogus")] (some "ivo://other#x") [] ] ]

/-- A document with no `role` attribute at all. -/
def noRoleRoot : XmlElem := .mk "voe:VOEvent"
  [("ivorn", "ivo://nasa.gsfc.gcn/SWIFT#NoRole"), ("version", "2.0")]
  none []

/-- A document with duplicated `Who/Date` and `Who/AuthorIVORN` elements;
the second `Date` does not even parse, the second `AuthorIVORN` differs. -/
def dupWhoRoot : XmlElem := .mk "voe:VOEvent"
  [("ivorn", "ivo://a/b#c"), ("role", "utility"), ("version", "1.1")]
  none
  [ .mk "Who" [] none
      [ .mk "Date" [] (some "2021-06-30T23:59:59Z") [],
        .mk "Date" [] (some "not-a-date") [],
        .mk "AuthorIVORN" [] (some "ivo://first/author") [],
        .mk "AuthorIVORN" [] (some "ivo://second/author") [] ] ]

/-- The row `Voevent.from_etree` builds from `dupWhoRoot`. -/
def dupWhoRow : VoeventRow :=
  { received := some sampleReceived
    ivorn := some "ivo://a/b#c"
    stream := some "a/b"
    role := some "utility"
    version := some "1.1"
    author_ivorn := some "ivo://first/author"
    author_datetime := some ⟨2021, 6, 30, 23, 59, 59, some 0⟩
    xml := some (vp_dumps dupWhoRoot)
    cites := [] }

/-- A document whose `Who/Date` text is not parseable as ISO-8601. -/
def badDateRoot : XmlElem := .mk "voe:VOEvent"
  [("ivorn", "ivo://a/b#c"), ("role", "observation"), ("version", "2.0")]
  none
  [ .mk "Who" [] none [ .mk "Date" [] (some "yesterday at noon") [] ] ]

/-- A document with no `Who` block and no `Citations` block at all. -/
def bareRoot : XmlElem := .mk "voe:VOEvent"
  [("ivorn", "ivo://a/b#c"), ("role", "prediction"), ("version", "2.0")]
  none []

/-- The row `Voevent.from_etree` builds from `bareRoot`. -/
def bareRow : VoeventRow :=
  { received := some sampleReceived
    ivorn := some "ivo://a/b#c"
    stream := some "a/b"
    role := some "prediction"
    version := some "2.0"
    author_ivorn := none
    author_datetime := none
    xml := some (vp_dumps bareRoot)
    cites := [] }

/-- A voevent row with every column set except `role`, left unset (NULL). -/
def noRoleRow : VoeventRow :=
  { received := some sampleReceived
    ivorn := some "ivo://nasa.gsfc.gcn/SWIFT#NoRole"
    stream := some "nasa.gsfc.gcn/SWIFT"
    role := none
    version := some "2.0"
    author_ivorn := none
    author_datetime := none
    xml := none
    cites := [] }

/-- An `EventIVORN` entry whose `cite` attribute value is outside the
enumeration. -/
def badCiteEntry : XmlElem :=
  .mk "EventIVORN" [("cite", "bogus")] (some "ivo://other#x") []

/-- An `EventIVORN` entry with non-empty text but no `cite` attribute. -/
def noCiteEntry : XmlElem := .mk "EventIVORN" [] (some "ivo://y#z") []

/-- The row `Voevent.from_etree` builds from `badRoleRoot`: note the
out-of-enumeration role value flows through extraction untouched. -/
def badRoleRow : VoeventRow :=
  { received := some sampleReceived
    ivorn := some "ivo://nasa.gsfc.gcn/SWIFT#Bad"
    stream := some "nasa.gsfc.gcn/SWIFT"
    role := some "banana"
    version := some "2.0"
    author_ivorn := none
    author_datetime := none
    xml := some (vp_dumps badRoleRoot)
    cites := [] }

/-- Helper: the first piece of a character-level split is the prefix of the
list strictly before the first separator occurrence. -/
theorem splitChar_headD (sep : Char) (l : List Char) :
    (splitChar sep l).headD [] = l.takeWhile (fun c => c ≠ sep) := by
  induction l with
  | nil => rfl
  | cons c rest ih =>
    by_cases hc : c = sep
    · simp [splitChar, hc]
    · simp [splitChar, hc]
      simpa [List.headD_eq_head?] using ih

theorem streamOf_eq_streamSpec (s : String) : streamOf s = streamSpec s := by
  unfold streamOf streamSpec
  rw [splitChar_headD]

theorem from_etree_ok_inv (root : XmlElem) (received : DateTime) (row : VoeventRow)
    (h : Voevent.from_etree root received = .ok row) :
    ∃ iv ro ver ad cs,
      attribGet root "ivorn" = .ok iv ∧
      attribGet root "role" = .ok ro ∧
      attribGet root "version" = .ok ver ∧
      grab_xpathE root ["Who", "Date"] parse_date_converter = .ok ad ∧
      Cite.from_etree root = .ok cs ∧
      row = { received := some received, ivorn := some iv,
              stream := some (streamOf iv), role := some ro, version := some ver,
              author_ivorn := grab_xpath root ["Who", "AuthorIVORN"] id,
              author_datetime := ad, xml := some (vp_dumps root), cites := cs } := by
  unfold Voevent.from_etree at h
  cases hiv : attribGet root "ivorn" with
  | error e => simp [hiv] at h
  | ok iv =>
    simp only [hiv] at h
    cases hro : attribGet root "role" with
    | error e => simp [hro] at h
    | ok ro =>
      simp only [hro] at h
      cases hver : attribGet root "version" with
      | error e => simp [hver] at h
      | ok ver =>
        simp only [hver] at h
        cases had : grab_xpathE root ["Who", "Date"] parse_date_converter with
        | error e => simp [had] at h
        | ok ad =>
          simp only [had] at h
          cases hcs : Cite.from_etree root with
          | error e => simp [hcs] at h
          | ok cs =>
            simp only [hcs, Except.ok.injEq] at h
            exact ⟨iv, ro, ver, ad, cs, rfl, rfl, rfl, rfl, rfl, h.symm⟩

theorem xpath_single (e : XmlElem) (t : String) :
    xpath e [t] = childrenTagged e t := by
  simp [xpath]

theorem citesFromEntries_ok (root : XmlElem) (dt : Option String)
    (es : List XmlElem) (cs : List CiteRow)
    (h : citesFromEntries root dt es = .ok cs) :
    cs.map CiteRow.ref_ivorn = nonEmptyTexts es ∧ ∀ c ∈ cs, c.description = dt := by
  induction es generalizing cs with
  | nil =>
    simp only [citesFromEntries, Except.ok.injEq] at h
    subst h
    exact ⟨rfl, by intro c hc; cases hc⟩
  | cons e rest ih =>
    unfold citesFromEntries at h
    cases hce : citeOfEntry root dt e with
    | error err => simp [hce] at h
    | ok c? =>
      simp only [hce] at h
      cases hrest : citesFromEntries root dt rest with
      | error err => simp [hrest] at h
      | ok cs' =>
        simp only [hrest] at h
        have ihr := ih cs' hrest
        unfold citeOfEntry at hce
        cases het : e.text with
        | none =>
          simp only [het] at hce
          cases hag : attribGet root "ivorn" with
          | error err => rw [hag] at hce; cases hce
          | ok v =>
            simp only [hag, Except.map, Except.ok.injEq] at hce
            subst hce
            simp only [Except.ok.injEq] at h
            subst h
            refine ⟨?_, ihr.2⟩
            simpa [nonEmptyTexts, het] using ihr.1
        | some t =>
          simp only [het] at hce
          by_cases ht : t = ""
          · simp only [if_pos ht] at hce
            cases hag : attribGet root "ivorn" with
            | error err => rw [hag] at hce; cases hce
            | ok v =>
              simp only [hag, Except.map, Except.ok.injEq] at hce
              subst hce
              simp only [Except.ok.injEq] at h
              subst h
              refine ⟨?_, ihr.2⟩
              simpa [nonEmptyTexts, het, ht] using ihr.1
          · simp only [if_neg ht] at hce
            cases hct : attribGet e "cite" with
            | error err => rw [hct] at hce; cases hce
            | ok ct =>
              simp only [hct, Except.ok.injEq] at hce
              subst hce
              simp only [Except.ok.injEq] at h
              subst h
              constructor
              · simpa [nonEmptyTexts, het, ht] using ihr.1
              · intro c hc
                cases hc with
                | head => rfl
                | tail _ hmem => exact ihr.2 c hmem

theorem entriesOf_nil_of_xpath_nil (root : XmlElem)
    (h : xpath root ["Citations", "EventIVORN"] = []) : entriesOf root = [] := by
  unfold entriesOf
  unfold xpath at h
  cases hc : childrenTagged root "Citations" with
  | nil => rfl
  | cons c rest =>
    rw [hc] at h
    simp only [xpath_single, List.flatMap_cons, List.append_eq_nil] at h
    exact h.1

theorem cite_from_etree_ok (root : XmlElem) (cs : List CiteRow)
    (h : Cite.from_etree root = .ok cs) :
    cs.map CiteRow.ref_ivorn = nonEmptyTexts (entriesOf root) ∧
    ∀ c ∈ cs, c.description = descTextOf root := by
  unfold Cite.from_etree at h
  cases hx : xpath root ["Citations", "EventIVORN"] with
  | nil =>
    simp only [hx, Except.ok.injEq] at h
    subst h
    rw [entriesOf_nil_of_xpath_nil root hx]
    exact ⟨rfl, by intro c hc; cases hc⟩
  | cons x xs =>
    simp only [hx] at h
    cases hc : childrenTagged root "Citations" with
    | nil =>
      unfold xpath at hx
      rw [hc] at hx
      simp at hx
    | cons cb cbrest =>
      have hdc : dotChild root "Citations" = .ok cb := by
        unfold dotChild
        rw [hc]
      simp only [hdc] at h
      cases hce : childrenTagged cb "EventIVORN" with
      | nil =>
        rw [hce] at h
        cases h
      | cons e es =>
        rw [hce] at h
        have := citesFromEntries_ok root
          (((xpath root ["Citations", "Description"]).head?).bind XmlElem.text)
          (e :: es) cs h
        have hent : entriesOf root = e :: es := by
          unfold entriesOf
          simp only [hc]
          exact hce
        rw [hent]
        exact ⟨this.1, this.2⟩

theorem iso8601_parse_date_aware (s : String) (d : DateTime)
    (h : iso8601_parse_date s = some d) : d.tzOffsetMinutes.isSome = true := by
  unfold iso8601_parse_date at h
  split at h
  · rw [Option.map_eq_some'] at h
    obtain ⟨yd, _, hd⟩ := h
    rw [← hd]
    rfl
  · split at h
    · cases h
    · simp only [] at h
      split at h
      · simp only [Option.some.injEq] at h
        rw [← h]
        rfl
      · cases h
  · cases h

/-- C1: the claim says a call to `Voevent.from_etree` without an explicit
`received` stamps the record with the current UTC time of THAT call, so two
calls at different times get different values.  The code evaluates the
default argument once, at module import: this theorem shows the result of
such a call is entirely independent of the call-time clock reading, and that
the received field of any successfully built record is the localized
module-import reading `pytzUtcLocalize loadT`, whatever the call time. -/
theorem C1_received_default_frozen (loadT : DateTime) (root : XmlElem)
    (t1 t2 : DateTime) :
    from_etree_noReceived loadT root t1 = from_etree_noReceived loadT root t2 ∧
    (from_etree_noReceived loadT root t1).map VoeventRow.received =
      (from_etree_noReceived loadT root t1).map
        (fun _ => some (pytzUtcLocalize loadT)) := by
  refine ⟨rfl, ?_⟩
  unfold from_etree_noReceived
  cases h : Voevent.from_etree root (pytzUtcLocalize loadT) with
  | error e => rfl
  | ok row =>
    obtain ⟨iv, ro, ver, ad, cs, _, _, _, _, _, hrow⟩ :=
      from_etree_ok_inv root (pytzUtcLocalize loadT) row h
    subst hrow
    rfl

/-- C2: for a document whose `ivorn` attribute contains a `#`, the record
built by extraction carries a stream equal to the spec-side derivation:
the portion of the identifier before the first `#` with its first six
characters (the fixed registration-authority prefix) removed. -/
theorem C2_stream_derivation (root : XmlElem) (t : DateTime) (iv : String)
    (row : VoeventRow)
    (hiv : attribGet root "ivorn" = .ok iv)
    (_hhash : '#' ∈ iv.data)
    (hrow : Voevent.from_etree root t = .ok row) :
    row.stream = some (streamSpec iv) := by
  obtain ⟨iv', ro, ver, ad, cs, hiv', _, _, _, _, hr⟩ :=
    from_etree_ok_inv root t row hrow
  rw [hiv] at hiv'
  injection hiv' with hiveq
  subst hr
  simp [streamOf_eq_streamSpec, hiveq]

/-- C3 amended: extraction fails when the `role` attribute is absent (the
dictionary access raises), but it does NOT validate the role value — any
present value is stored verbatim in the record — and a value outside the
enumeration is rejected only by the storage layer's enum constraint. -/
theorem C3_role_validation :
    (∀ root t, root.attrib.lookup "role" = none →
      (Voevent.from_etree root t).isOk = false) ∧
    (∀ root t v row, attribGet root "role" = .ok v →
      Voevent.from_etree root t = .ok row → row.role = some v) ∧
    (∀ (r : VoeventRow) ro, r.role = some ro →
      roles_enum.contains ro = false → voeventRowConstraintsOK r = false) := by
  refine ⟨?_, ?_, ?_⟩
  · intro root t hrole
    unfold Voevent.from_etree
    cases hiv : attribGet root "ivorn" with
    | error e => rfl
    | ok iv =>
      have hke : attribGet root "role" = .error (.keyError "role") := by
        unfold attribGet
        rw [hrole]
      simp only [hke]
      rfl
  · intro root t v row hv hrow
    obtain ⟨iv, ro, ver, ad, cs, _, hro, _, _, _, hr⟩ :=
      from_etree_ok_inv root t row hrow
    rw [hv] at hro
    injection hro with hveq
    subst hr
    simp [hveq]
  · intro r ro h1 h2
    have hv : voeventRowConstraintsOK r =
        (r.received.isSome && r.ivorn.isSome && roles_enum.contains ro) := by
      unfold voeventRowConstraintsOK
      rw [h1]
    rw [hv, h2]
    simp

/-- C4 amended: for a non-empty `EventIVORN` entry the loop body builds the
Citation Record with `ref_ivorn` equal to the entry text and `cite_type`
equal to the `cite` attribute value verbatim — no enumerated-value check at
extraction (a missing attribute still raises `KeyError`); values outside the
enumeration are rejected only by the storage layer's enum constraint. -/
theorem C4_cite_validation :
    (∀ root dt e t ct, e.text = some t → t ≠ "" →
      attribGet e "cite" = .ok ct →
      citeOfEntry root dt e =
        .ok (some { ref_ivorn := t, cite_type := ct, description := dt })) ∧
    (∀ root dt e t, e.text = some t → t ≠ "" →
      e.attrib.lookup "cite" = none →
      citeOfEntry root dt e = .error (.keyError "cite")) ∧
    (∀ c : CiteRow, cite_types_enum.contains c.cite_type = false →
      citeRowConstraintsOK c = false) := by
  refine ⟨?_, ?_, ?_⟩
  · intro root dt e t ct het ht hct
    unfold citeOfEntry
    simp only [het, if_neg ht, hct]
  · intro root dt e t het ht hcite
    have : attribGet e "cite" = .error (.keyError "cite") := by
      unfold attribGet
      rw [hcite]
    unfold citeOfEntry
    simp only [het, if_neg ht, this]
  · intro c h
    unfold citeRowConstraintsOK
    exact h

/-- C5: a document with no `Citations/EventIVORN` elements yields the empty
citation list without error, and whenever citation extraction succeeds, the
list has exactly one record per truthy-text `EventIVORN` entry, in document
order, each carrying that entry's text; falsy-text entries are skipped. -/
theorem C5_citation_list (root : XmlElem) (cs : List CiteRow) :
    (xpath root ["Citations", "EventIVORN"] = [] →
      Cite.from_etree root = .ok []) ∧
    (Cite.from_etree root = .ok cs →
      cs.map CiteRow.ref_ivorn = nonEmptyTexts (entriesOf root)) := by
  constructor
  · intro hx
    unfold Cite.from_etree
    simp only [hx]
  · intro h
    exact (cite_from_etree_ok root cs h).1

/-- C6 amended: the storage layer requires `received` and `ivorn` to be
present and a non-null `role` to belong to the enumeration; but the `role`
column carries no `nullable=False`, so when `role` is unset the row is
accepted whenever `received` and `ivorn` are present — contrary to the
claim, a missing role does not fail. -/
theorem C6_storage_constraints (r : VoeventRow) :
    (r.received = none → voeventRowConstraintsOK r = false) ∧
    (r.ivorn = none → voeventRowConstraintsOK r = false) ∧
    (r.role = none →
      voeventRowConstraintsOK r = (r.received.isSome && r.ivorn.isSome)) ∧
    (∀ ro, r.role = some ro → roles_enum.contains ro = false →
      voeventRowConstraintsOK r = false) := by
  refine ⟨?_, ?_, ?_, ?_⟩
  · intro h; simp [voeventRowConstraintsOK, h]
  · intro h; simp [voeventRowConstraintsOK, h]
  · intro h; simp [voeventRowConstraintsOK, h]
  · intro ro h1 h2
    have hv : voeventRowConstraintsOK r =
        (r.received.isSome && r.ivorn.isSome && roles_enum.contains ro) := by
      unfold voeventRowConstraintsOK
      rw [h1]
    rw [hv, h2]
    simp

/-- C7: every record built by extraction has its stream equal to the value
derived from its identifier, and any two extracted records agreeing on the
identifier agree on the stream — the extractor takes no independent stream
input, so stream is a function of the identifier. -/
theorem C7_stream_determined (root : XmlElem) (t : DateTime) (row : VoeventRow)
    (root' : XmlElem) (t' : DateTime) (row' : VoeventRow)
    (h : Voevent.from_etree root t = .ok row)
    (h' : Voevent.from_etree root' t' = .ok row') :
    (∃ iv, row.ivorn = some iv ∧ row.stream = some (streamOf iv)) ∧
    (row.ivorn = row'.ivorn → row.stream = row'.stream) := by
  obtain ⟨iv, ro, ver, ad, cs, _, _, _, _, _, hr⟩ :=
    from_etree_ok_inv root t row h
  obtain ⟨iv', ro', ver', ad', cs', _, _, _, _, _, hr'⟩ :=
    from_etree_ok_inv root' t' row' h'
  subst hr hr'
  refine ⟨⟨iv, rfl, rfl⟩, ?_⟩
  intro he
  simp only [VoeventRow.ivorn, Option.some.injEq] at he
  simp [he]

/-- C8: every Citation Record extracted from a document carries the same
description, namely the text of the first `Citations/Description` element
(unset when that element is absent or textless). -/
theorem C8_shared_description (root : XmlElem) (cs : List CiteRow) (c : CiteRow)
    (h : Cite.from_etree root = .ok cs) (hc : c ∈ cs) :
    c.description = descTextOf root :=
  (cite_from_etree_ok root cs h).2 c hc

/-- C9: when a `Who/Date` element is present and its text parses as
ISO-8601, the record's `author_datetime` is exactly the parsed timestamp and
it is timezone-aware; when the text does not parse, extraction fails; when
the element is absent, extraction leaves `author_datetime` unset and the
date lookup itself causes no failure. -/
theorem C9_author_datetime (root : XmlElem) (t : DateTime) :
    (∀ e rest d row, xpath root ["Who", "Date"] = e :: rest →
      iso8601_parse_date (strOfElem e) = some d →
      Voevent.from_etree root t = .ok row →
      row.author_datetime = some d ∧ d.tzOffsetMinutes.isSome = true) ∧
    (∀ e rest, xpath root ["Who", "Date"] = e :: rest →
      iso8601_parse_date (strOfElem e) = none →
      (Voevent.from_etree root t).isOk = false) ∧
    (xpath root ["Who", "Date"] = [] →
      ∀ row, Voevent.from_etree root t = .ok row →
        row.author_datetime = none) := by
  refine ⟨?_, ?_, ?_⟩
  · intro e rest d row hx hp hrow
    obtain ⟨iv, ro, ver, ad, cs, _, _, _, had, _, hr⟩ :=
      from_etree_ok_inv root t row hrow
    unfold grab_xpathE at had
    simp only [hx] at had
    unfold parse_date_converter at had
    simp only [hp, Except.map, Except.ok.injEq] at had
    subst hr
    refine ⟨?_, iso8601_parse_date_aware _ d hp⟩
    show ad = some d
    exact had.symm
  · intro e rest hx hp
    unfold Voevent.from_etree
    cases hiv : attribGet root "ivorn" with
    | error er => rfl
    | ok iv =>
      cases hro : attribGet root "role" with
      | error er => rfl
      | ok ro =>
        cases hver : attribGet root "version" with
        | error er => rfl
        | ok ver =>
          have hgx : grab_xpathE root ["Who", "Date"] parse_date_converter =
              .error (.parseError (strOfElem e)) := by
            unfold grab_xpathE
            simp only [hx]
            unfold parse_date_converter
            simp only [hp]
            rfl
          simp only [hgx]
          rfl
  · intro hx row hrow
    obtain ⟨iv, ro, ver, ad, cs, _, _, _, had, _, hr⟩ :=
      from_etree_ok_inv root t row hrow
    unfold grab_xpathE at had
    simp only [hx] at had
    injection had with hadeq
    subst hr
    show ad = none
    exact hadeq.symm

/-- C10: with several `Who/Date` or `Who/AuthorIVORN` elements present,
extraction uses only the first of each in document order: the record's
`author_datetime` is determined by the first `Date` element's text and its
`author_ivorn` is the first `AuthorIVORN` element's text, whatever the
later elements hold. -/
theorem C10_first_element_wins (root : XmlElem) (t : DateTime)
    (row : VoeventRow) (e1 : XmlElem) (rest : List XmlElem) (a1 : XmlElem)
    (arest : List XmlElem)
    (hd : xpath root ["Who", "Date"] = e1 :: rest)
    (ha : xpath root ["Who", "AuthorIVORN"] = a1 :: arest)
    (h : Voevent.from_etree root t = .ok row) :
    row.author_datetime = iso8601_parse_date (strOfElem e1) ∧
    row.author_ivorn = some (strOfElem a1) := by
  obtain ⟨iv, ro, ver, ad, cs, _, _, _, had, _, hr⟩ :=
    from_etree_ok_inv root t row h
  subst hr
  constructor
  · unfold grab_xpathE at had
    simp only [hd] at had
    unfold parse_date_converter at had
    cases hp : iso8601_parse_date (strOfElem e1) with
    | none => simp [hp, Except.map] at had
    | some d =>
      simp only [hp, Except.map, Except.ok.injEq] at had
      show ad = some d
      exact had.symm
  · show grab_xpath root ["Who", "AuthorIVORN"] id = some (strOfElem a1)
    unfold grab_xpath
    simp only [ha]
    rfl

set_option maxRecDepth 20000 in
/-- C3 counterexample: a document whose `role` attribute holds `banana`, a
value outside the enumeration, is extracted successfully — refuting the
claim that extraction fails on such a value. -/
theorem C3_counterexample :
    attribGet badRoleRoot "role" = .ok "banana" ∧
    roles_enum.contains "banana" = false ∧
    (Voevent.from_etree badRoleRoot sampleReceived).isOk = true :=
  ⟨by decide, by decide, by decide⟩

set_option maxRecDepth 20000 in
/-- C3 witness: the amended theorem applied at concrete inputs. -/
theorem C3_witness :
    (Voevent.from_etree noRoleRoot sampleReceived).isOk = false ∧
    badRoleRow.role = some "banana" ∧
    voeventRowConstraintsOK badRoleRow = false :=
  ⟨C3_role_validation.1 noRoleRoot sampleReceived (by decide),
   C3_role_validation.2.1 badRoleRoot sampleReceived "banana" badRoleRow
     (by decide) (by decide),
   C3_role_validation.2.2 badRoleRow "banana" (by decide) (by decide)⟩

set_option maxRecDepth 20000 in
/-- C4 counterexample: a citation entry whose `cite` attribute holds
`bogus`, a value outside the enumeration, is extracted successfully into a
Citation Record — refuting the claim that extraction fails on it. -/
theorem C4_counterexample :
    attribGet badCiteEntry "cite" = .ok "bogus" ∧
    cite_types_enum.contains "bogus" = false ∧
    Cite.from_etree badCiteRoot =
      .ok [{ ref_ivorn := "ivo://other#x", cite_type := "bogus",
             description := none }] :=
  ⟨by decide, by decide, by decide⟩

set_option maxRecDepth 20000 in
/-- C4 witness: the amended theorem applied at concrete inputs. -/
theorem C4_witness :
    citeOfEntry badCiteRoot none badCiteEntry =
      .ok (some { ref_ivorn := "ivo://other#x", cite_type := "bogus",
                  description := none }) ∧
    citeOfEntry badCiteRoot none noCiteEntry = .error (.keyError "cite") ∧
    citeRowConstraintsOK
      { ref_ivorn := "ivo://other#x", cite_type := "bogus",
        description := none } = false :=
  ⟨C4_cite_validation.1 badCiteRoot none badCiteEntry "ivo://other#x" "bogus"
     (by decide) (by decide) (by decide),
   C4_cite_validation.2.1 badCiteRoot none noCiteEntry "ivo://y#z"
     (by decide) (by decide) (by decide),
   C4_cite_validation.2.2 _ (by decide)⟩

set_option maxRecDepth 20000 in
/-- C2 witness: the theorem applied at a concrete document. -/
theorem C2_witness :
    sampleRow.stream =
      some (streamSpec "ivo://nasa.gsfc.gcn/SWIFT#BAT_GRB_Pos") :=
  C2_stream_derivation sampleRoot sampleReceived
    "ivo://nasa.gsfc.gcn/SWIFT#BAT_GRB_Pos" sampleRow (by decide) (by decide)
    (by decide)

set_option maxRecDepth 20000 in
/-- C5 witness: the theorem applied at concrete documents. -/
theorem C5_witness :
    Cite.from_etree bareRoot = .ok [] ∧
    ([{ ref_ivorn := "ivo://x#a", cite_type := "followup",
        description := some "shared desc" }] : List CiteRow).map
        CiteRow.ref_ivorn = nonEmptyTexts (entriesOf sampleRoot) :=
  ⟨(C5_citation_list bareRoot []).1 (by rfl),
   (C5_citation_list sampleRoot _).2 (by decide)⟩

/-- C6 counterexample: a row with `role` unset but `received` and `ivorn`
present passes the storage-layer row constraints — refuting the claim that
such an insert fails with a constraint violation. -/
theorem C6_counterexample :
    noRoleRow.role = none ∧ voeventRowConstraintsOK noRoleRow = true :=
  ⟨by decide, by decide⟩

/-- C6 witness: the amended theorem applied at concrete rows. -/
theorem C6_witness :
    voeventRowConstraintsOK { noRoleRow with received := none } = false ∧
    voeventRowConstraintsOK { noRoleRow with ivorn := none } = false ∧
    voeventRowConstraintsOK noRoleRow =
      (noRoleRow.received.isSome && noRoleRow.ivorn.isSome) ∧
    voeventRowConstraintsOK { noRoleRow with role := some "banana" } = false :=
  ⟨(C6_storage_constraints _).1 (by decide),
   (C6_storage_constraints _).2.1 (by decide),
   (C6_storage_constraints _).2.2.1 (by decide),
   (C6_storage_constraints _).2.2.2 "banana" (by decide) (by decide)⟩

set_option maxRecDepth 20000 in
/-- C7 witness: the theorem applied at a concrete document. -/
theorem C7_witness :
    (∃ iv, sampleRow.ivorn = some iv ∧
      sampleRow.stream = some (streamOf iv)) ∧
    (sampleRow.ivorn = sampleRow.ivorn →
      sampleRow.stream = sampleRow.stream) :=
  C7_stream_determined sampleRoot sampleReceived sampleRow sampleRoot
    sampleReceived sampleRow (by decide) (by decide)

set_option maxRecDepth 20000 in
/-- C8 witness: the theorem applied at a concrete document. -/
theorem C8_witness :
    ({ ref_ivorn := "ivo://x#a", cite_type := "followup",
       description := some "shared desc" } : CiteRow).description =
      descTextOf sampleRoot :=
  C8_shared_description sampleRoot
    [{ ref_ivorn := "ivo://x#a", cite_type := "followup",
       description := some "shared desc" }] _ (by decide) (by decide)

set_option maxRecDepth 20000 in
/-- C9 witness: the theorem applied at concrete documents covering the
present-and-parseable, unparseable and absent cases. -/
theorem C9_witness :
    (sampleRow.author_datetime = some ⟨2020, 1, 1, 12, 0, 0, some 0⟩ ∧
      (⟨2020, 1, 1, 12, 0, 0, some 0⟩ : DateTime).tzOffsetMinutes.isSome =
        true) ∧
    (Voevent.from_etree badDateRoot sampleReceived).isOk = false ∧
    bareRow.author_datetime = none :=
  ⟨(C9_author_datetime sampleRoot sampleReceived).1
      (.mk "Date" [] (some "2020-01-01T12:00:00Z") []) []
      ⟨2020, 1, 1, 12, 0, 0, some 0⟩ sampleRow (by rfl) (by decide)
      (by decide),
   (C9_author_datetime badDateRoot sampleReceived).2.1
      (.mk "Date" [] (some "yesterday at noon") []) [] (by rfl) (by decide),
   (C9_author_datetime bareRoot sampleReceived).2.2 (by rfl) bareRow
      (by decide)⟩

set_option maxRecDepth 20000 in
/-- C10 witness: the theorem applied at a document with two `Who/Date` and
two `Who/AuthorIVORN` elements. -/
theorem C10_witness :
    dupWhoRow.author_datetime = iso8601_parse_date "2021-06-30T23:59:59Z" ∧
    dupWhoRow.author_ivorn = some "ivo://first/author" :=
  C10_first_element_wins dupWhoRoot sampleReceived dupWhoRow
    (.mk "Date" [] (some "2021-06-30T23:59:59Z") [])
    [.mk "Date" [] (some "not-a-date") []]
    (.mk "AuthorIVORN" [] (some "ivo://first/author") [])
    [.mk "AuthorIVORN" [] (some "ivo://second/author") []]
    (by rfl) (by rfl) (by decide)
